import Mathlib

/-!
Shallow embedding of the ONNX Resize/Upsample operator lowering
(`src/onnx/parse_resize.cpp` of the AMDMIGraphX repository).

Modelling conventions:
* Machine `std::size_t` / `int64_t` / `int` values are modelled by `Nat` / `Int`;
  the widths never matter for the properties below except for the explicit
  `n_bits >= 64` overflow guard of `calc_neighbor_points`, which the source
  checks itself (`std::numeric_limits<std::size_t>::digits == 64`).
* C++ `double`/`float` values are modelled by `ℚ` with exact arithmetic;
  `static_cast<std::size_t>` of a non-negative value is truncation, modelled
  by `Int.toNat ∘ Int.floor`.
* A migraphx `shape` is modelled by its element type, its dimension lengths
  and a dynamic flag; `shape::index` of a static (standard, row-major packed)
  shape is the usual row-major flattening, `shape::elements` the product of
  the lengths.  `shape::to_static(1)` clears the dynamic flag; the recorded
  lengths of a dynamic shape stand for the lengths `to_static(1)` produces
  (fixed dynamic dimensions keep their value, unfixed ones become 1), which
  is all the source reads from them.
* The graph builder (`info.add_instruction` / `info.add_literal`) is modelled
  by an explicit list of emitted nodes; a handle is either a reference to one
  of the caller-supplied arguments or the position of a node emitted by this
  call.  `MIGRAPHX_THROW` is modelled by returning an error value while
  keeping the nodes already emitted (a C++ exception does not undo builder
  mutations).
* The external policy tables `op::resize::get_nearest_op` and
  `op::resize::get_original_idx_op` live outside the provided sources; the
  embedding is parameterized over them (`Policies`), exactly as the claims
  treat them: opaque pure functions selected by name.
-/

/-- Element type tag of a migraphx shape (only the distinctions the parser
reads: `int64_type` selects the "sizes" branch of `parse_args`; literals are
created as `int32_type` or `float_type`). -/
inductive DType where
  | float
  | int32
  | int64
deriving DecidableEq

/-- A migraphx shape: element type, dimension lengths, dynamic flag. -/
structure Shape where
  ty : DType
  lens : List Nat
  dyn : Bool
deriving DecidableEq

/-- `shape::to_static(1)`: same lengths (see module comment), dynamic flag
cleared. -/
def Shape.to_static (s : Shape) : Shape :=
  { s with dyn := false }

/-- Row-major strides product: `shape::elements()` of a static shape. -/
def Shape.elements (s : Shape) : Nat :=
  s.lens.prod

/-- `shape::index(indices)` of a static standard shape: row-major
flattening, `Σ indices[d] * strides[d]` with `strides[d] = Π lens[d+1..]`. -/
def shapeIndex : List Nat → List Nat → Nat
  | [], _ => 0
  | _ :: _, [] => 0
  | _ :: ls, i :: is => i * ls.prod + shapeIndex ls is

/-- The multi-dimensional coordinate that `shape_for_each` pairs with flat
output position `i` of a static standard shape (row-major decode). -/
def multiIdx : List Nat → Nat → List Nat
  | [], _ => []
  | l :: ls, i => (i / ls.prod % l) :: multiIdx ls i

/-- Replace the head of a list (C++ `v[0] = f(v[0])` on a non-empty vector). -/
def updateHead (f : Nat → Nat) : List Nat → List Nat
  | [] => []
  | h :: t => f h :: t

/-- The error kinds of the lowering, named as in the specification's §7
table; each corresponds to one `MIGRAPHX_THROW` site of the source. -/
inductive ParseErr where
  | UnsupportedCoordinateTransformMode
  | UnsupportedInterpolationMode
  | UnsupportedExcludeOutside
  | RankMismatch
  | OutputRankMismatch
  | MissingScaleOrSizeInput
  | DimensionOverflow
  | UnsupportedDynamicLinear
deriving DecidableEq

/-- The attribute map, restricted to the keys `parse_resize` reads.
`none` models an absent key; `scales = []` models an absent or empty
deprecated `scales` attribute (the source treats both identically). -/
structure Attrs where
  coordinate_transformation_mode : Option String
  mode : Option String
  nearest_mode : Option String
  scales : List ℚ
  exclude_outside : Option Int
deriving DecidableEq

/-- An argument handle (`instruction_ref`): node identity (for the
`arg == args.front()` pointer comparison), operator name, shape, and the
result of `eval()` (`none` when the value is not a compile-time constant).
Constant buffers are carried as exact rationals; for an `int64` sizes
argument the entries are the (integral) stored values. -/
structure Arg where
  uid : Nat
  name : String
  shape : Shape
  eval : Option (List ℚ)
deriving DecidableEq

/-- A handle returned by the graph builder: either one of the external
arguments of this lowering call or the `i`-th node emitted by this call. -/
inductive HRef where
  | arg (i : Nat)
  | node (i : Nat)
deriving DecidableEq

/-- The primitive operations `parse_resize` emits, with their static
parameters. -/
inductive Op where
  | resize (nearest_mode coord_trans_mode : String)
  | reshape (dims : List Int)
  | gather (axis : Int)
  | slice (axes starts ends : List Int)
  | sub
  | mul
  | add
deriving DecidableEq

/-- Payload of an emitted literal. -/
inductive LitData where
  | ints (v : List Int)
  | floats (v : List ℚ)
deriving DecidableEq

/-- A node emitted into the graph builder by one lowering call. -/
inductive Node where
  | instr (op : Op) (inputs : List HRef)
  | lit (s : Shape) (d : LitData)
deriving DecidableEq

/-- The two external policy tables of `migraphx::op::resize` (outside the
provided sources): `get_nearest_op nearest_mode in_len continuous` rounds a
continuous coordinate to an integer index, `get_original_idx_op mode in_len
out_len out_coord scale` maps an output coordinate to a continuous source
coordinate.  The embedding is parametric over them. -/
structure Policies where
  getNearestOp : String → Nat → ℚ → Nat
  getIdxOp : String → Nat → Nat → Nat → ℚ → ℚ

/-- The per-dimension index vector composed by the inner loop of
`calc_neighbor_points` for corner selector `v` and output element `e`:
dimension `d` picks `vvv_ind[d][bits_val[d]][e]`, where `bits_val[d]` is bit
`d` of `v` (`std::bitset::operator[]`, bit 0 = least significant). -/
def corner_indices (t : List (List (List Nat))) (v e : Nat) : List Nat :=
  (List.range t.length).map fun d =>
    ((t.getD d []).getD (if Nat.testBit v d then 1 else 0) []).getD e 0

/-- `calc_neighbor_points(vvv_ind, in_s)` (parse_resize.cpp:92-120):
guards `n_bits < 64`, then for each `val` in `[0, 2^n_bits)` appends, for
each output element, the flat input offset of the composed index vector. -/
def calc_neighbor_points (t : List (List (List Nat))) (in_lens : List Nat) :
    Except ParseErr (List Nat) :=
  let n_bits := t.length
  let m_elements := ((t.headD []).headD []).length
  if 64 ≤ n_bits then
    .error .DimensionOverflow
  else
    .ok ((List.range (2 ^ n_bits)).flatMap fun v =>
      (List.range m_elements).map fun e => shapeIndex in_lens (corner_indices t v e))

/-- The bit order asserted by the specification of the neighbor enumeration
(claim C2): dimension 0 reads the MOST significant of the rank bits, i.e.
dimension `d` reads bit `rank - 1 - d` of `v`.  Stated only to compare the
claimed ordering with the source ordering. -/
def calc_neighbor_points_msb (t : List (List (List Nat))) (in_lens : List Nat) :
    Except ParseErr (List Nat) :=
  let n_bits := t.length
  let m_elements := ((t.headD []).headD []).length
  if 64 ≤ n_bits then
    .error .DimensionOverflow
  else
    .ok ((List.range (2 ^ n_bits)).flatMap fun v =>
      (List.range m_elements).map fun e =>
        shapeIndex in_lens ((List.range t.length).map fun d =>
          ((t.getD d []).getD (if Nat.testBit v (t.length - 1 - d) then 1 else 0) []).getD e 0))

/-- `get_coord_trans_mode` (parse_resize.cpp:122-136): defaults to
`"half_pixel"`, rejects `"tf_crop_and_resize"`. -/
def get_coord_trans_mode (attrs : Attrs) : Except ParseErr String :=
  match attrs.coordinate_transformation_mode with
  | none => .ok "half_pixel"
  | some s =>
    if s = "tf_crop_and_resize" then .error .UnsupportedCoordinateTransformMode
    else .ok s

/-- `get_mode` (parse_resize.cpp:138-151): defaults to `"nearest"`, only
`"nearest"` and `"linear"` are accepted. -/
def get_mode (attrs : Attrs) : Except ParseErr String :=
  match attrs.mode with
  | none => .ok "nearest"
  | some s =>
    if s ≠ "nearest" ∧ s ≠ "linear" then .error .UnsupportedInterpolationMode
    else .ok s

/-- `get_nearest_mode` (parse_resize.cpp:153-162): defaults to
`"round_prefer_floor"`, any value accepted. -/
def get_nearest_mode (attrs : Attrs) : String :=
  (attrs.nearest_mode).getD "round_prefer_floor"

/-- `get_scales` (parse_resize.cpp:164-174): the deprecated `scales`
attribute, empty when absent. -/
def get_scales (attrs : Attrs) : List ℚ :=
  attrs.scales

/-- `int64` buffer value to `std::size_t` (non-negative integral values,
the only ones a well-formed sizes input carries). -/
def ratToSize (q : ℚ) : Nat :=
  (⌊q⌋).toNat

/-- One argument is skipped by the `parse_args` scan when it is the
placeholder `"undefined"`, is the primary data argument (`arg ==
args.front()`, pointer identity), or has an empty `lens()`. -/
def skippable (first a : Arg) : Prop :=
  a.name = "undefined" ∨ a.uid = first.uid ∨ a.shape.lens = []

instance (first a : Arg) : Decidable (skippable first a) := by
  unfold skippable; infer_instance

/-- Recursion of `parse_args` (parse_resize.cpp:182-240) over the argument
list.  Returns `(non_static, vec_scale, out_lens, r_arg index)`:
`non_static = true` means `eval()` produced no data and the caller must fall
back to the runtime resize op.  `idx` tracks the position of the current
argument in the original list. -/
def parse_args_go (first : Arg) (in_lens : List Nat) (vec_scale : List ℚ)
    (out_lens : List Nat) (idx : Nat) :
    List Arg → Except ParseErr (Bool × List ℚ × List Nat × Nat)
  | [] => .error .MissingScaleOrSizeInput
  | a :: rest =>
    if skippable first a then
      parse_args_go first in_lens vec_scale out_lens (idx + 1) rest
    else if a.shape.ty = DType.int64 then
      -- this argument is output sizes
      match a.eval with
      | none => .ok (true, vec_scale, out_lens, idx)
      | some vals =>
        let out := vals.map ratToSize
        if out.length ≠ in_lens.length then .error .OutputRankMismatch
        else
          .ok (false, List.zipWith (fun (iss oss : Nat) => (oss : ℚ) / (iss : ℚ)) in_lens out, out, idx)
    else
      -- this argument is the scale input
      if a.shape.lens.headD 0 = in_lens.length then
        match a.eval with
        | none => .ok (true, vec_scale, out_lens, idx)
        | some vals => .ok (false, vals, out_lens, idx)
      else .ok (false, vec_scale, out_lens, idx)

/-- `parse_args(args, in_lens, ...)`: scan the whole argument list (the
first element is skipped by the pointer comparison inside the loop). -/
def parse_args (args : List Arg) (in_lens : List Nat) (vec_scale : List ℚ)
    (out_lens : List Nat) : Except ParseErr (Bool × List ℚ × List Nat × Nat) :=
  parse_args_go (args.headD ⟨0, "", ⟨DType.float, [], false⟩, none⟩) in_lens
    vec_scale out_lens 0 args

/-- The scale / output-length resolution phase of `parse_resize::parse`
(parse_resize.cpp:316-355): deprecated `scales` attribute, else
`parse_args`; result is `(is_constant, vec_scale, out_lens, r_arg index)`
before the rank check and the derivation of `out_lens` from the scales. -/
def resolve_step (attrs : Attrs) (args : List Arg) (in_lens : List Nat) :
    Except ParseErr (Bool × List ℚ × List Nat × Nat) :=
  let vec_scale := get_scales attrs
  let out_lens0 := List.replicate in_lens.length 0
  if vec_scale.isEmpty then
    match parse_args args in_lens vec_scale out_lens0 with
    | .error e => .error e
    | .ok (nonStatic, sc, ol, ri) => .ok (!nonStatic, sc, ol, ri)
  else .ok (true, vec_scale, out_lens0, 0)

/-- Scale resolution of `parse_resize::parse` including the rank check and
the `out_len[i] = size_t(in_len[i] * scale[i])` derivation applied when the
output lengths are still all zero (parse_resize.cpp:337-355). -/
def resolve_scales (attrs : Attrs) (args : List Arg) (in_lens : List Nat) :
    Except ParseErr (Bool × List ℚ × List Nat × Nat) :=
  match resolve_step attrs args in_lens with
  | .error e => .error e
  | .ok (isConst, sc, ol, ri) =>
    if isConst then
      if in_lens.length ≠ sc.length then .error .RankMismatch
      else if ol.all (· = 0) then
        .ok (true, sc, List.zipWith (fun (idx : Nat) (scale : ℚ) => (⌊(idx : ℚ) * scale⌋).toNat) in_lens sc, ri)
      else .ok (true, sc, ol, ri)
    else .ok (false, sc, ol, ri)

/-- The index literal computed by `make_gather_instruction`
(parse_resize.cpp:268-277): for each flat output position, the flat input
offset of the per-dimension nearest indices. -/
def make_gather_ind (nOp : Nat → ℚ → Nat) (idxOp : Nat → Nat → Nat → ℚ → ℚ)
    (in_lens out_lens : List Nat) (scale : List ℚ) : List Nat :=
  (List.range out_lens.prod).map fun oi =>
    shapeIndex in_lens ((List.range in_lens.length).map fun ii =>
      nOp (in_lens.getD ii 0)
        (idxOp (in_lens.getD ii 0) (out_lens.getD ii 0)
          ((multiIdx out_lens oi).getD ii 0) (scale.getD ii 0)))

/-- `make_gather_instruction` (parse_resize.cpp:251-286): emits
`reshape(input, [elements])`, the int32 index literal of shape `out_lens`,
and `gather(axis=0)`; returns the gather. -/
def make_gather_instruction (nOp : Nat → ℚ → Nat) (idxOp : Nat → Nat → Nat → ℚ → ℚ)
    (in_lens out_lens : List Nat) (scale : List ℚ) :
    List Node × Except ParseErr HRef :=
  ([Node.instr (Op.reshape [(in_lens.prod : Int)]) [HRef.arg 0],
    Node.lit ⟨DType.int32, out_lens, false⟩
      (LitData.ints ((make_gather_ind nOp idxOp in_lens out_lens scale).map Int.ofNat)),
    Node.instr (Op.gather 0) [HRef.node 0, HRef.node 1]],
   .ok (HRef.node 2))

/-- The continuous source coordinate `idx_op(in_lens[ii], out_lens[ii],
out_idx_v[ii], vec_scale[ii])` for dimension `ii` at flat output position
`oi` (parse_resize.cpp:272, 412). -/
def lin_idx_val (idxOp : Nat → Nat → Nat → ℚ → ℚ) (in_lens out_lens : List Nat)
    (scale : List ℚ) (ii oi : Nat) : ℚ :=
  idxOp (in_lens.getD ii 0) (out_lens.getD ii 0)
    ((multiIdx out_lens oi).getD ii 0) (scale.getD ii 0)

/-- Column `ii` of the `vvv_ind` table of the linear branch
(parse_resize.cpp:409-416): floor indices (corner 0) and ceil indices
(corner 1) for every flat output position. -/
def lin_vvv_col (floorOp ceilOp : Nat → ℚ → Nat) (idxOp : Nat → Nat → Nat → ℚ → ℚ)
    (in_lens out_lens : List Nat) (scale : List ℚ) (ii : Nat) : List (List Nat) :=
  [(List.range out_lens.prod).map fun oi =>
      floorOp (in_lens.getD ii 0) (lin_idx_val idxOp in_lens out_lens scale ii oi),
   (List.range out_lens.prod).map fun oi =>
      ceilOp (in_lens.getD ii 0) (lin_idx_val idxOp in_lens out_lens scale ii oi)]

/-- The `vvv_ind` table of the linear branch: `n_dim` columns. -/
def lin_vvv (floorOp ceilOp : Nat → ℚ → Nat) (idxOp : Nat → Nat → Nat → ℚ → ℚ)
    (in_lens out_lens : List Nat) (scale : List ℚ) : List (List (List Nat)) :=
  (List.range out_lens.length).map
    (lin_vvv_col floorOp ceilOp idxOp in_lens out_lens scale)

/-- Row `ii` of the `delta` table (parse_resize.cpp:415): fractional part
`idx_val - floor_index` for every flat output position. -/
def lin_delta_col (floorOp : Nat → ℚ → Nat) (idxOp : Nat → Nat → Nat → ℚ → ℚ)
    (in_lens out_lens : List Nat) (scale : List ℚ) (ii : Nat) : List ℚ :=
  (List.range out_lens.prod).map fun oi =>
    lin_idx_val idxOp in_lens out_lens scale ii oi -
      (floorOp (in_lens.getD ii 0) (lin_idx_val idxOp in_lens out_lens scale ii oi) : ℚ)

/-- The `delta` table: `n_dim` rows. -/
def lin_deltas (floorOp : Nat → ℚ → Nat) (idxOp : Nat → Nat → Nat → ℚ → ℚ)
    (in_lens out_lens : List Nat) (scale : List ℚ) : List (List ℚ) :=
  (List.range out_lens.length).map
    (lin_delta_col floorOp idxOp in_lens out_lens scale)

/-- The six nodes one iteration of the linear blending loop emits
(parse_resize.cpp:429-453), with `b = dim_lens[0]` at entry, `dref` the
current data tensor, `base` the number of nodes already emitted: the tiled
delta literal of shape `b :: rest`, the low and high slices `[0, b)` and
`[b, 2b)` of dimension 0, and `sub`, `mul`, `add` computing
`low + (high - low) * delta`. -/
def iterChunk (rest : List Nat) (out0 : Nat) (d : List ℚ) (b : Nat)
    (dref : HRef) (base : Nat) : List Node :=
  [Node.lit ⟨DType.float, b :: rest, false⟩
     (LitData.floats (List.replicate (b / out0) d).flatten),
   Node.instr (Op.slice [0] [0] [(b : Int)]) [dref],
   Node.instr (Op.slice [0] [(b : Int)] [(2 * b : Int)]) [dref],
   Node.instr Op.sub [HRef.node (base + 2), HRef.node (base + 1)],
   Node.instr Op.mul [HRef.node (base + 3), HRef.node base],
   Node.instr Op.add [HRef.node (base + 4), HRef.node (base + 1)]]

/-- The blending loop of the linear branch (parse_resize.cpp:429-453),
iterating over the per-dimension deltas in reverse dimension order (`ds` is
the reversed delta table), carrying the current leading block length
(`dim_lens[0]`, halved each iteration), the current data handle, and the
nodes emitted so far. -/
def blendLoop (out0 : Nat) (rest : List Nat) :
    List (List ℚ) → Nat → HRef → List Node → List Node × HRef
  | [], _, data, nodes => (nodes, data)
  | d :: ds, b, data, nodes =>
    blendLoop out0 rest ds (b / 2) (HRef.node (nodes.length + 5))
      (nodes ++ iterChunk rest out0 d b data nodes.length)

/-- The linear branch of `parse_resize::parse` (parse_resize.cpp:385-455):
reject non-constant inputs, reshape to one dimension, build the neighbor
table and deltas, gather all `2^n_dim` corners, then blend dimension by
dimension from last to first. -/
def linearBranch (floorOp ceilOp : Nat → ℚ → Nat) (idxOp : Nat → Nat → Nat → ℚ → ℚ)
    (in_lens out_lens : List Nat) (scale : List ℚ) (isConst : Bool) :
    List Node × Except ParseErr HRef :=
  if isConst = false then ([], .error .UnsupportedDynamicLinear)
  else
    let rsp := Node.instr (Op.reshape [(in_lens.prod : Int)]) [HRef.arg 0]
    let n_dim := out_lens.length
    let vvv := lin_vvv floorOp ceilOp idxOp in_lens out_lens scale
    match calc_neighbor_points vvv in_lens with
    | .error e => ([rsp], .error e)
    | .ok ind =>
      let ind_lens := updateHead (· * 2 ^ n_dim) out_lens
      let litInd := Node.lit ⟨DType.int32, ind_lens, false⟩
        (LitData.ints (ind.map Int.ofNat))
      let gather := Node.instr (Op.gather 0) [HRef.node 0, HRef.node 1]
      let dim0 := (updateHead (· * 2 ^ (n_dim - 1)) out_lens).headD 0
      let ds := (lin_deltas floorOp idxOp in_lens out_lens scale).reverse
      let r := blendLoop (out_lens.headD 0) out_lens.tail ds dim0 (HRef.node 2)
        [rsp, litInd, gather]
      (r.1, .ok r.2)

/-- `parse_resize::parse` (parse_resize.cpp:288-457).  `a0` is `args[0]`
(the data argument), `rest` the remaining arguments.  Returns the nodes
emitted into the builder (in order) and either the returned handle or the
error thrown; on error, the already-emitted nodes remain. -/
def parse (pol : Policies) (attrs : Attrs) (a0 : Arg) (rest : List Arg) :
    List Node × Except ParseErr HRef :=
  match get_coord_trans_mode attrs with
  | .error e => ([], .error e)
  | .ok ctm =>
    match get_mode attrs with
    | .error e => ([], .error e)
    | .ok mode =>
      let nearest_mode := get_nearest_mode attrs
      let idxOp := pol.getIdxOp ctm
      if attrs.exclude_outside = some 1 then ([], .error .UnsupportedExcludeOutside)
      else
        let in_s := a0.shape.to_static
        let in_lens := in_s.lens
        match resolve_scales attrs (a0 :: rest) in_lens with
        | .error e => ([], .error e)
        | .ok (isConst, vec_scale, out_lens, ri) =>
          if mode = "nearest" then
            if a0.shape.dyn = true ∨ isConst = false then
              ([Node.instr (Op.resize nearest_mode ctm) [HRef.arg 0, HRef.arg ri]],
               .ok (HRef.node 0))
            else
              make_gather_instruction (pol.getNearestOp nearest_mode) idxOp
                in_lens out_lens vec_scale
          else
            linearBranch (pol.getNearestOp "floor") (pol.getNearestOp "ceil") idxOp
              in_lens out_lens vec_scale isConst

instance {ε α : Type} [DecidableEq ε] [DecidableEq α] : DecidableEq (Except ε α) :=
  fun a b =>
    match a, b with
    | .error e, .error f =>
      if h : e = f then .isTrue (by rw [h]) else .isFalse (by intro c; cases c; exact h rfl)
    | .ok x, .ok y =>
      if h : x = y then .isTrue (by rw [h]) else .isFalse (by intro c; cases c; exact h rfl)
    | .error _, .ok _ => .isFalse (by intro c; cases c)
    | .ok _, .error _ => .isFalse (by intro c; cases c)

/-- A simple total policy instance used to exercise the parametric
embedding at concrete inputs: identity coordinate transform and a clamped
floor rounding. -/
def idPolicies : Policies where
  getNearestOp := fun _ len q => min (⌊q⌋).toNat (len - 1)
  getIdxOp := fun _ _ _ x _ => (x : ℚ)

/-! ### List helper lemmas -/

lemma getD_map_range {α : Type} (n : Nat) (f : Nat → α) (d : Nat) (dflt : α)
    (hd : d < n) : ((List.range n).map f).getD d dflt = f d := by
  rw [List.getD_eq_getElem?_getD, List.getElem?_map, List.getElem?_range hd]
  rfl

lemma flatMap_range_length {α : Type} (m : Nat) (f : Nat → List α) :
    ∀ n : Nat, (∀ i < n, (f i).length = m) →
      ((List.range n).flatMap f).length = n * m := by
  intro n
  induction n with
  | zero => intro _; simp
  | succ k ih =>
    intro h
    rw [List.range_succ, List.flatMap_append, List.length_append,
      ih (fun i hi => h i (Nat.lt_succ_of_lt hi))]
    simp [h k (Nat.lt_succ_self k), Nat.succ_mul]

lemma flatMap_range_getElem {α : Type} (m : Nat) (f : Nat → List α) :
    ∀ n : Nat, (∀ i < n, (f i).length = m) →
      ∀ v e : Nat, v < n → e < m →
        ((List.range n).flatMap f)[v * m + e]? = (f v)[e]? := by
  intro n
  induction n with
  | zero => intro _ v e hv; omega
  | succ k ih =>
    intro h v e hv he
    rw [List.range_succ, List.flatMap_append, List.flatMap_cons, List.flatMap_nil,
      List.append_nil]
    have hlen : ((List.range k).flatMap f).length = k * m :=
      flatMap_range_length m f k (fun i hi => h i (Nat.lt_succ_of_lt hi))
    rcases Nat.lt_or_ge v k with hvk | hvk
    · have hidx : v * m + e < k * m := by
        have : v * m + e < (v + 1) * m := by
          rw [Nat.succ_mul]; omega
        exact Nat.lt_of_lt_of_le this (Nat.mul_le_mul_right m hvk)
      rw [List.getElem?_append, if_pos (by omega)]
      exact ih (fun i hi => h i (Nat.lt_succ_of_lt hi)) v e hvk he
    · have hv' : v = k := by omega
      subst hv'
      rw [List.getElem?_append_right (by omega)]
      congr 1
      omega

/-- A coordinate tuple that is pointwise within the dimension lengths has a
flat offset below the total element count. -/
lemma shapeIndex_lt :
    ∀ (lens idx : List Nat), idx.length = lens.length →
      (∀ d < lens.length, idx.getD d 0 < lens.getD d 0) →
      shapeIndex lens idx < lens.prod := by
  intro lens
  induction lens with
  | nil => intro idx _ _; simp [shapeIndex]
  | cons l ls ih =>
    intro idx hlen hvalid
    match idx with
    | [] => simp at hlen
    | i :: is =>
      have hi : i < l := by
        have := hvalid 0 (by simp)
        simpa using this
      have hrest : shapeIndex ls is < ls.prod := by
        apply ih
        · simpa using hlen
        · intro d hd
          have := hvalid (d + 1) (by simpa using Nat.succ_lt_succ hd)
          simpa using this
      show i * ls.prod + shapeIndex ls is < (l :: ls).prod
      rw [List.prod_cons]
      calc i * ls.prod + shapeIndex ls is
          < i * ls.prod + ls.prod := by omega
        _ = (i + 1) * ls.prod := by ring
        _ ≤ l * ls.prod := Nat.mul_le_mul_right _ (Nat.succ_le_of_lt hi)

/-! ### C1: size and range of the neighbor-point offsets -/

/-- C1: for every rank `r` with `0 < r < 63`, every static input shape with
`r` dimensions, and every `r × 2 × m` neighbor table whose entries are valid
indices for their dimension, `calc_neighbor_points` succeeds and returns
exactly `2^r * m` flat offsets, each below the total input element count. -/
theorem claim_C1 (t : List (List (List Nat))) (lens : List Nat) (r m : Nat)
    (htr : t.length = r) (hr0 : 0 < r) (hr : r < 63) (hlens : lens.length = r)
    (h2 : ∀ vv ∈ t, vv.length = 2)
    (hm : ∀ vv ∈ t, ∀ w ∈ vv, w.length = m)
    (hvalid : ∀ d < r, ∀ c < 2, ∀ e < m,
      ((t.getD d []).getD c []).getD e 0 < lens.getD d 0) :
    ∃ res, calc_neighbor_points t lens = .ok res ∧ res.length = 2 ^ r * m ∧
      ∀ x ∈ res, x < lens.prod := by
  have hme : ((t.headD []).headD []).length = m := by
    have hne : t ≠ [] := by intro h; rw [h] at htr; simp at htr; omega
    obtain ⟨a, t', rfl⟩ := List.exists_cons_of_ne_nil hne
    have ha2 : a.length = 2 := h2 a (by simp)
    have hane : a ≠ [] := by intro h; rw [h] at ha2; simp at ha2
    obtain ⟨w, a', rfl⟩ := List.exists_cons_of_ne_nil hane
    simpa using hm (w :: a') (by simp) w (by simp)
  have hok : calc_neighbor_points t lens =
      .ok ((List.range (2 ^ t.length)).flatMap fun v =>
        (List.range (((t.headD []).headD []).length)).map fun e =>
          shapeIndex lens (corner_indices t v e)) := by
    unfold calc_neighbor_points
    rw [if_neg (by omega)]
  refine ⟨_, hok, ?_, ?_⟩
  · rw [htr, hme]
    exact flatMap_range_length m _ (2 ^ r) (fun i _ => by simp)
  · intro x hx
    rw [List.mem_flatMap] at hx
    obtain ⟨v, _, hxv⟩ := hx
    rw [List.mem_map] at hxv
    obtain ⟨e, he, hxe⟩ := hxv
    rw [List.mem_range, hme] at he
    subst hxe
    apply shapeIndex_lt
    · simp [corner_indices, htr, hlens]
    · intro d hd
      rw [hlens] at hd
      rw [corner_indices, htr, getD_map_range r _ d 0 hd]
      exact hvalid d hd _ (by split <;> omega) e he

/-! ### C2: ordering of the neighbor-point offsets -/

/-- C2 (corrected): the output of `calc_neighbor_points` consists of `2^r`
contiguous blocks of `m` offsets in ascending corner value `v`, and within
block `v` the entry for output element `e` is the flat input offset of the
index vector picking, for dimension `d`, `table[d][bit_d(v)][e]` — where
`bit_d(v)` is bit `d` of `v` counting from the LEAST significant bit
(dimension 0 corresponds to the least significant of the rank bits). -/
theorem claim_C2 (t : List (List (List Nat))) (lens : List Nat) (r m : Nat)
    (res : List Nat) (htr : t.length = r) (hr0 : 0 < r) (hr : r < 64)
    (h2 : ∀ vv ∈ t, vv.length = 2)
    (hm : ∀ vv ∈ t, ∀ w ∈ vv, w.length = m)
    (hcalc : calc_neighbor_points t lens = .ok res) :
    ∀ v e, v < 2 ^ r → e < m →
      res[v * m + e]? = some (shapeIndex lens ((List.range r).map fun d =>
        ((t.getD d []).getD (if Nat.testBit v d then 1 else 0) []).getD e 0)) := by
  have hme : ((t.headD []).headD []).length = m := by
    have hne : t ≠ [] := by intro h; rw [h] at htr; simp at htr; omega
    obtain ⟨a, t', rfl⟩ := List.exists_cons_of_ne_nil hne
    have ha2 : a.length = 2 := h2 a (by simp)
    have hane : a ≠ [] := by intro h; rw [h] at ha2; simp at ha2
    obtain ⟨w, a', rfl⟩ := List.exists_cons_of_ne_nil hane
    simpa using hm (w :: a') (by simp) w (by simp)
  intro v e hv he
  unfold calc_neighbor_points at hcalc
  rw [if_neg (by omega)] at hcalc
  simp only [Except.ok.injEq] at hcalc
  subst hcalc
  rw [hme, htr,
    flatMap_range_getElem m _ (2 ^ r) (fun i _ => by simp) v e hv he,
    List.getElem?_map, List.getElem?_range he]
  simp [corner_indices, htr]

/-- Counterexample to C2 as stated: for the rank-2 table
`[[[0],[1]], [[0],[2]]]` over the shape `[10,10]`, the source enumerates the
corner for `v = 1` as `(table[0][1][0], table[1][0][0]) = (1,0)` (offset 10,
bit 0 of `v` drives dimension 0), while the claimed MSB-first reading picks
`(table[0][0][0], table[1][1][0]) = (0,2)` (offset 2): the orderings
disagree. -/
theorem claim_C2_counterexample :
    calc_neighbor_points [[[0], [1]], [[0], [2]]] [10, 10] = .ok [0, 10, 2, 12] ∧
    calc_neighbor_points_msb [[[0], [1]], [[0], [2]]] [10, 10] = .ok [0, 2, 10, 12] ∧
    ([0, 10, 2, 12] : List Nat) ≠ [0, 2, 10, 12] := by
  refine ⟨by decide, by decide, by decide⟩

/-- Witness for C1 at `r = 2`, `m = 1`, shape `[10,10]`. -/
theorem claim_C1_witness :
    ∃ res, calc_neighbor_points [[[0], [1]], [[0], [2]]] [10, 10] = .ok res ∧
      res.length = 2 ^ 2 * 1 ∧ ∀ x ∈ res, x < ([10, 10] : List Nat).prod :=
  claim_C1 [[[0], [1]], [[0], [2]]] [10, 10] 2 1 rfl (by decide) (by decide) rfl
    (by decide) (by decide) (by decide)

/-- Witness for C2 at `v = 1`, `e = 0` of the same table. -/
theorem claim_C2_witness :
    ([0, 10, 2, 12] : List Nat)[1 * 1 + 0]? =
      some (shapeIndex [10, 10] ((List.range 2).map fun d =>
        ((([[[0], [1]], [[0], [2]]] : List (List (List Nat))).getD d []).getD
          (if Nat.testBit 1 d then 1 else 0) []).getD 0 0)) :=
  claim_C2 [[[0], [1]], [[0], [2]]] [10, 10] 2 1 [0, 10, 2, 12] rfl (by decide)
    (by decide) (by decide) (by decide) (by decide) 1 0 (by decide) (by decide)

/-! ### Error classification of the lowering stages -/

lemma get_coord_trans_mode_error (attrs : Attrs) (e : ParseErr)
    (h : get_coord_trans_mode attrs = .error e) :
    e = .UnsupportedCoordinateTransformMode := by
  simp only [get_coord_trans_mode] at h
  split at h
  · cases h
  · split at h
    · cases h; rfl
    · cases h

lemma get_mode_error (attrs : Attrs) (e : ParseErr)
    (h : get_mode attrs = .error e) : e = .UnsupportedInterpolationMode := by
  simp only [get_mode] at h
  split at h
  · cases h
  · split at h
    · cases h; rfl
    · cases h

lemma parse_args_go_error (first : Arg) (in_lens : List Nat) :
    ∀ (l : List Arg) (vs : List ℚ) (ol : List Nat) (idx : Nat) (e : ParseErr),
      parse_args_go first in_lens vs ol idx l = .error e →
      e = .OutputRankMismatch ∨ e = .MissingScaleOrSizeInput := by
  intro l
  induction l with
  | nil => intro vs ol idx e h; cases h; right; rfl
  | cons a rest ih =>
    intro vs ol idx e h
    simp only [parse_args_go] at h
    split at h
    · exact ih vs ol (idx + 1) e h
    · split at h
      · split at h
        · cases h
        · split at h
          · cases h; left; rfl
          · cases h
      · split at h
        · split at h
          · cases h
          · cases h
        · cases h

lemma resolve_step_error (attrs : Attrs) (args : List Arg) (in_lens : List Nat)
    (e : ParseErr) (h : resolve_step attrs args in_lens = .error e) :
    e = .OutputRankMismatch ∨ e = .MissingScaleOrSizeInput := by
  simp only [resolve_step] at h
  split at h
  · split at h
    · cases h
      exact parse_args_go_error _ _ _ _ _ _ _ (by assumption)
    · cases h
  · cases h

lemma resolve_scales_error (attrs : Attrs) (args : List Arg) (in_lens : List Nat)
    (e : ParseErr) (h : resolve_scales attrs args in_lens = .error e) :
    e = .RankMismatch ∨ e = .OutputRankMismatch ∨ e = .MissingScaleOrSizeInput := by
  simp only [resolve_scales] at h
  split at h
  · rename_i e1 heq
    cases h
    rcases resolve_step_error _ _ _ _ heq with h1 | h1
    · right; left; exact h1
    · right; right; exact h1
  · split at h
    · split at h
      · cases h; left; rfl
      · split at h <;> cases h
    · cases h

lemma calc_neighbor_points_error (t : List (List (List Nat))) (in_lens : List Nat)
    (e : ParseErr) (h : calc_neighbor_points t in_lens = .error e) :
    e = .DimensionOverflow := by
  simp only [calc_neighbor_points] at h
  split at h
  · cases h; rfl
  · cases h

lemma linearBranch_cases (floorOp ceilOp : Nat → ℚ → Nat)
    (idxOp : Nat → Nat → Nat → ℚ → ℚ) (in_lens out_lens : List Nat)
    (scale : List ℚ) (isConst : Bool) :
    linearBranch floorOp ceilOp idxOp in_lens out_lens scale isConst =
      ([], .error .UnsupportedDynamicLinear) ∨
    (∃ r, (linearBranch floorOp ceilOp idxOp in_lens out_lens scale isConst).2 = .ok r) ∨
    linearBranch floorOp ceilOp idxOp in_lens out_lens scale isConst =
      ([Node.instr (Op.reshape [(in_lens.prod : Int)]) [HRef.arg 0]],
       .error .DimensionOverflow) := by
  simp only [linearBranch]
  split
  · left; rfl
  · rcases hcalc : calc_neighbor_points
        (lin_vvv floorOp ceilOp idxOp in_lens out_lens scale) in_lens with e | ind
    · right; right
      have := calc_neighbor_points_error _ _ _ hcalc
      subst this
      rfl
    · right; left
      exact ⟨_, rfl⟩

lemma parse_cases (pol : Policies) (attrs : Attrs) (a0 : Arg) (rest : List Arg) :
    (∃ e, parse pol attrs a0 rest = ([], .error e) ∧ e ≠ .DimensionOverflow ∧
       (e = .UnsupportedExcludeOutside → attrs.exclude_outside = some 1)) ∨
    (∃ r, (parse pol attrs a0 rest).2 = .ok r) ∨
    parse pol attrs a0 rest =
      ([Node.instr (Op.reshape [(a0.shape.lens.prod : Int)]) [HRef.arg 0]],
       .error .DimensionOverflow) := by
  simp only [parse]
  cases hc : get_coord_trans_mode attrs with
  | error e1 =>
    left
    refine ⟨e1, rfl, ?_, ?_⟩ <;> rw [get_coord_trans_mode_error _ _ hc] <;> simp
  | ok ctm =>
    dsimp only
    cases hm : get_mode attrs with
    | error e2 =>
      left
      refine ⟨e2, rfl, ?_, ?_⟩ <;> rw [get_mode_error _ _ hm] <;> simp
    | ok mode =>
      dsimp only
      split
      · rename_i hex
        left
        exact ⟨_, rfl, by simp, fun _ => hex⟩
      · cases hr : resolve_scales attrs (a0 :: rest) a0.shape.to_static.lens with
        | error e3 =>
          dsimp only
          left
          refine ⟨e3, rfl, ?_, ?_⟩ <;>
            rcases resolve_scales_error _ _ _ _ hr with h | h | h <;> rw [h] <;> simp
        | ok res =>
          obtain ⟨isConst, vec_scale, out_lens, ri⟩ := res
          dsimp only
          split
          · split
            · right; left; exact ⟨_, rfl⟩
            · right; left; exact ⟨_, rfl⟩
          · rcases linearBranch_cases (pol.getNearestOp "floor") (pol.getNearestOp "ceil")
                (pol.getIdxOp ctm) a0.shape.to_static.lens out_lens vec_scale isConst with
              h | ⟨r, h⟩ | h
            · rw [h]
              left
              exact ⟨_, rfl, by simp, by simp⟩
            · right; left
              exact ⟨r, h⟩
            · rw [h]
              right; right
              rfl

/-! ### C3: builder state on error -/

/-- C3 (corrected): every error of the lowering except `DimensionOverflow`
is raised before anything is emitted, leaving the graph builder unchanged;
`DimensionOverflow` (raised by `calc_neighbor_points` inside the linear
branch) is raised after the flatten `reshape` instruction has already been
emitted, leaving exactly that one instruction behind. -/
theorem claim_C3 (pol : Policies) (attrs : Attrs) (a0 : Arg) (rest : List Arg)
    (e : ParseErr) (h : (parse pol attrs a0 rest).2 = .error e) :
    (e ≠ .DimensionOverflow → (parse pol attrs a0 rest).1 = []) ∧
    (e = .DimensionOverflow → (parse pol attrs a0 rest).1 =
      [Node.instr (Op.reshape [(a0.shape.lens.prod : Int)]) [HRef.arg 0]]) := by
  rcases parse_cases pol attrs a0 rest with ⟨e1, hp, hne, _⟩ | ⟨r, hp⟩ | hp
  · rw [hp] at h
    have he : e1 = e := Except.error.inj h
    subst he
    exact ⟨fun _ => by rw [hp], fun hd => absurd hd hne⟩
  · rw [hp] at h
    simp at h
  · rw [hp] at h
    have he : ParseErr.DimensionOverflow = e := Except.error.inj h
    subst he
    exact ⟨fun hne => absurd rfl hne, fun _ => by rw [hp]⟩

/-- Counterexample to C3 as stated: a rank-64 static input in linear mode
with a constant `scales` attribute reaches `calc_neighbor_points`, which
throws `DimensionOverflow` after the flatten `reshape` has already been
emitted — the graph is NOT unchanged on this error. -/
theorem claim_C3_counterexample :
    parse idPolicies ⟨none, some "linear", none, List.replicate 64 1, none⟩
        ⟨0, "x", ⟨DType.float, List.replicate 64 1, false⟩, none⟩ [] =
      ([Node.instr (Op.reshape [1]) [HRef.arg 0]], .error .DimensionOverflow) ∧
    ([Node.instr (Op.reshape [1]) [HRef.arg 0]] : List Node) ≠ [] :=
  ⟨by decide, by decide⟩

/-- Witness for C3: a failing invocation (unsupported coordinate-transform
mode) with an empty emitted-node list. -/
theorem claim_C3_witness :
    (parse idPolicies ⟨some "tf_crop_and_resize", none, none, [], none⟩
      ⟨0, "x", ⟨DType.float, [2], false⟩, none⟩ []).1 = [] :=
  (claim_C3 idPolicies ⟨some "tf_crop_and_resize", none, none, [], none⟩
    ⟨0, "x", ⟨DType.float, [2], false⟩, none⟩ [] .UnsupportedCoordinateTransformMode
    (by decide)).1 (by decide)

/-! ### C8: tf_crop_and_resize rejection and the default mode -/

/-- C8: `coordinate_transformation_mode = "tf_crop_and_resize"` makes the
lowering fail with `UnsupportedCoordinateTransformMode` regardless of every
other attribute and argument (it is the first check performed); an absent
attribute defaults to `"half_pixel"`, and every other value is accepted. -/
theorem claim_C8 :
    (∀ (pol : Policies) (attrs : Attrs) (a0 : Arg) (rest : List Arg),
       attrs.coordinate_transformation_mode = some "tf_crop_and_resize" →
       parse pol attrs a0 rest = ([], .error .UnsupportedCoordinateTransformMode)) ∧
    (∀ attrs : Attrs, attrs.coordinate_transformation_mode = none →
       get_coord_trans_mode attrs = .ok "half_pixel") ∧
    (∀ (attrs : Attrs) (s : String), attrs.coordinate_transformation_mode = some s →
       s ≠ "tf_crop_and_resize" → get_coord_trans_mode attrs = .ok s) := by
  refine ⟨?_, ?_, ?_⟩
  · intro pol attrs a0 rest h
    have hc : get_coord_trans_mode attrs = .error .UnsupportedCoordinateTransformMode := by
      simp [get_coord_trans_mode, h]
    simp [parse, hc]
  · intro attrs h
    simp [get_coord_trans_mode, h]
  · intro attrs s h hs
    simp [get_coord_trans_mode, h, hs]

/-- Witness for C8: concrete rejection, default, and acceptance cases. -/
theorem claim_C8_witness :
    parse idPolicies ⟨some "tf_crop_and_resize", none, none, [], none⟩
        ⟨0, "x", ⟨DType.float, [2], false⟩, none⟩ [] =
      ([], .error .UnsupportedCoordinateTransformMode) ∧
    get_coord_trans_mode ⟨none, none, none, [], none⟩ = .ok "half_pixel" ∧
    get_coord_trans_mode ⟨some "align_corners", none, none, [], none⟩ =
      .ok "align_corners" :=
  ⟨claim_C8.1 idPolicies ⟨some "tf_crop_and_resize", none, none, [], none⟩
      ⟨0, "x", ⟨DType.float, [2], false⟩, none⟩ [] rfl,
   claim_C8.2.1 ⟨none, none, none, [], none⟩ rfl,
   claim_C8.2.2 ⟨some "align_corners", none, none, [], none⟩ "align_corners" rfl (by decide)⟩

/-! ### C9: exclude_outside handling -/

/-- C9 (corrected): when `exclude_outside` is present with value 1 the
lowering fails with `UnsupportedExcludeOutside`, independent of the
remaining attributes and arguments, PROVIDED the earlier checks pass (the
coordinate-transform-mode and interpolation-mode checks run first and take
precedence); when the attribute is absent, `UnsupportedExcludeOutside` is
never raised. -/
theorem claim_C9 :
    (∀ (pol : Policies) (attrs : Attrs) (a0 : Arg) (rest : List Arg) (ctm mode : String),
       get_coord_trans_mode attrs = .ok ctm → get_mode attrs = .ok mode →
       attrs.exclude_outside = some 1 →
       parse pol attrs a0 rest = ([], .error .UnsupportedExcludeOutside)) ∧
    (∀ (pol : Policies) (attrs : Attrs) (a0 : Arg) (rest : List Arg),
       attrs.exclude_outside = none →
       (parse pol attrs a0 rest).2 ≠ .error .UnsupportedExcludeOutside) := by
  constructor
  · intro pol attrs a0 rest ctm mode hc hm hex
    simp [parse, hc, hm, hex]
  · intro pol attrs a0 rest hex h
    rcases parse_cases pol attrs a0 rest with ⟨e1, hp, _, hue⟩ | ⟨r, hp⟩ | hp
    · rw [hp] at h
      have he : e1 = .UnsupportedExcludeOutside := Except.error.inj h
      have h2 := hue he
      rw [hex] at h2
      cases h2
    · rw [hp] at h
      simp at h
    · rw [hp] at h
      have he := Except.error.inj h
      cases he
  
/-- Counterexample to C9 as stated: with `exclude_outside = 1` AND
`coordinate_transformation_mode = "tf_crop_and_resize"`, the lowering fails
with `UnsupportedCoordinateTransformMode`, not `UnsupportedExcludeOutside` —
the exclude-outside failure is not independent of the other attributes. -/
theorem claim_C9_counterexample :
    parse idPolicies ⟨some "tf_crop_and_resize", none, none, [], some 1⟩
        ⟨0, "x", ⟨DType.float, [2], false⟩, none⟩ [] =
      ([], .error .UnsupportedCoordinateTransformMode) ∧
    ParseErr.UnsupportedCoordinateTransformMode ≠ ParseErr.UnsupportedExcludeOutside :=
  ⟨by decide, by decide⟩

/-- Witness for C9: concrete failing and non-failing invocations. -/
theorem claim_C9_witness :
    parse idPolicies ⟨none, none, none, [], some 1⟩
        ⟨0, "x", ⟨DType.float, [2], false⟩, none⟩ [] =
      ([], .error .UnsupportedExcludeOutside) ∧
    (parse idPolicies ⟨none, none, none, [1], none⟩
        ⟨0, "x", ⟨DType.float, [2], false⟩, none⟩ []).2 ≠
      .error .UnsupportedExcludeOutside :=
  ⟨claim_C9.1 idPolicies ⟨none, none, none, [], some 1⟩
      ⟨0, "x", ⟨DType.float, [2], false⟩, none⟩ [] "half_pixel" "nearest" rfl rfl rfl,
   claim_C9.2 idPolicies ⟨none, none, none, [1], none⟩
      ⟨0, "x", ⟨DType.float, [2], false⟩, none⟩ [] rfl⟩

/-! ### C4: linear mode and non-constant inputs -/

/-- C4 (corrected): in linear mode the lowering fails with
`UnsupportedDynamicLinear` exactly when the scale/size inputs are not
compile-time constant — for any input shape, dynamic or not; when the
scales ARE compile-time constant, a runtime-dynamic input shape does NOT
produce this error (the lowering proceeds through the compile-time linear
path on the `to_static(1)` lengths). -/
theorem claim_C4 :
    (∀ (pol : Policies) (attrs : Attrs) (a0 : Arg) (rest : List Arg) (ctm : String)
       (sc : List ℚ) (ol : List Nat) (ri : Nat),
       get_coord_trans_mode attrs = .ok ctm →
       get_mode attrs = .ok "linear" →
       attrs.exclude_outside ≠ some 1 →
       resolve_scales attrs (a0 :: rest) a0.shape.to_static.lens = .ok (false, sc, ol, ri) →
       parse pol attrs a0 rest = ([], .error .UnsupportedDynamicLinear)) ∧
    (∀ (pol : Policies) (attrs : Attrs) (a0 : Arg) (rest : List Arg) (ctm : String)
       (sc : List ℚ) (ol : List Nat) (ri : Nat),
       get_coord_trans_mode attrs = .ok ctm →
       get_mode attrs = .ok "linear" →
       attrs.exclude_outside ≠ some 1 →
       resolve_scales attrs (a0 :: rest) a0.shape.to_static.lens = .ok (true, sc, ol, ri) →
       (parse pol attrs a0 rest).2 ≠ .error .UnsupportedDynamicLinear) := by
  constructor
  · intro pol attrs a0 rest ctm sc ol ri hc hm hex hr
    simp [parse, hc, hm, hex, hr, linearBranch]
  · intro pol attrs a0 rest ctm sc ol ri hc hm hex hr
    simp only [parse, hc, hm, hr]
    rw [if_neg hex, if_neg (by decide)]
    simp only [linearBranch]
    rw [if_neg (by simp)]
    rcases hcalc : calc_neighbor_points
        (lin_vvv (pol.getNearestOp "floor") (pol.getNearestOp "ceil")
          (pol.getIdxOp ctm) a0.shape.to_static.lens ol sc) a0.shape.to_static.lens
      with e | ind
    · have := calc_neighbor_points_error _ _ _ hcalc
      subst this
      simp
    · simp

/-- Counterexample to C4 as stated: a runtime-dynamic input shape with
mode `"linear"` and a compile-time-constant `scales` attribute does NOT
yield `UnsupportedDynamicLinear` — the lowering succeeds. -/
theorem claim_C4_counterexample :
    (parse idPolicies ⟨none, some "linear", none, [1], none⟩
        ⟨0, "x", ⟨DType.float, [2], true⟩, none⟩ []).2 ≠
      .error .UnsupportedDynamicLinear ∧
    (⟨DType.float, [2], true⟩ : Shape).dyn = true :=
  ⟨by decide, rfl⟩

/-- Witness for C4: a non-constant scale argument in linear mode fails with
`UnsupportedDynamicLinear`; a constant scale in linear mode never does. -/
theorem claim_C4_witness :
    parse idPolicies ⟨none, some "linear", none, [], none⟩
        ⟨0, "x", ⟨DType.float, [2], false⟩, none⟩
        [⟨1, "s", ⟨DType.float, [1], false⟩, none⟩] =
      ([], .error .UnsupportedDynamicLinear) ∧
    (parse idPolicies ⟨none, some "linear", none, [1], none⟩
        ⟨0, "x", ⟨DType.float, [2], false⟩, none⟩ []).2 ≠
      .error .UnsupportedDynamicLinear :=
  ⟨claim_C4.1 idPolicies ⟨none, some "linear", none, [], none⟩
      ⟨0, "x", ⟨DType.float, [2], false⟩, none⟩
      [⟨1, "s", ⟨DType.float, [1], false⟩, none⟩] "half_pixel" [] [0] 1
      rfl rfl (by decide) (by decide),
   claim_C4.2 idPolicies ⟨none, some "linear", none, [1], none⟩
      ⟨0, "x", ⟨DType.float, [2], false⟩, none⟩ [] "half_pixel" [1] [2] 0
      rfl rfl (by decide) (by with_unfolding_all rfl)⟩

/-! ### C7: derivation of output lengths and back-computed scales -/

lemma getD_zipWith {α β γ : Type} (f : α → β → γ) :
    ∀ (l1 : List α) (l2 : List β) (d : Nat) (x : α) (y : β) (z : γ),
      d < l1.length → d < l2.length →
      (List.zipWith f l1 l2).getD d z = f (l1.getD d x) (l2.getD d y) := by
  intro l1
  induction l1 with
  | nil => intro l2 d x y z h1 _; simp at h1
  | cons a l1 ih =>
    intro l2 d x y z h1 h2
    cases l2 with
    | nil => simp at h2
    | cons b l2 =>
      cases d with
      | zero => simp
      | succ d =>
        simp only [List.zipWith_cons_cons, List.getD_cons_succ]
        exact ih l2 d x y z (by simpa using h1) (by simpa using h2)

lemma getD_mem_of_lt {α : Type} (l : List α) (d : Nat) (x : α) (h : d < l.length) :
    l.getD d x ∈ l := by
  rw [List.getD_eq_getElem?_getD, List.getElem?_eq_getElem h]
  exact List.getElem_mem h

lemma parse_args_go_skip (first : Arg) (in_lens : List Nat) (a : Arg) (l : List Arg)
    (vsc : List ℚ) (ol : List Nat) (idx : Nat) (h : skippable first a) :
    parse_args_go first in_lens vsc ol idx (a :: l) =
      parse_args_go first in_lens vsc ol (idx + 1) l := by
  simp only [parse_args_go]
  rw [if_pos h]

lemma parse_args_go_sizes (first : Arg) (in_lens : List Nat) (a : Arg)
    (rest : List Arg) (vals : List ℚ)
    (hskip : ¬ skippable first a) (hty : a.shape.ty = DType.int64)
    (heval : a.eval = some vals)
    (hlen : (vals.map ratToSize).length = in_lens.length) :
    ∀ pre : List Arg, (∀ b ∈ pre, skippable first b) →
      ∀ (vsc : List ℚ) (ol : List Nat) (idx : Nat),
        parse_args_go first in_lens vsc ol idx (pre ++ a :: rest) =
          .ok (false,
            List.zipWith (fun (iss oss : Nat) => (oss : ℚ) / (iss : ℚ)) in_lens (vals.map ratToSize),
            vals.map ratToSize, idx + pre.length) := by
  intro pre
  induction pre with
  | nil =>
    intro _ vsc ol idx
    simp only [List.nil_append, parse_args_go, if_neg hskip, if_pos hty, heval]
    rw [if_neg (by simp [hlen])]
    simp
  | cons b pre ih =>
    intro hb vsc ol idx
    rw [List.cons_append, parse_args_go_skip first in_lens b _ vsc ol idx (hb b (by simp)),
      ih (fun c hc => hb c (by simp [hc])) vsc ol (idx + 1)]
    simp only [List.length_cons]
    have h3 : idx + 1 + pre.length = idx + (pre.length + 1) := by omega
    rw [h3]

/-- C7: (1) when the scales are resolved (deprecated attribute or constant
scale argument) and the output lengths are still all zero (not explicitly
supplied), the output lengths are derived as
`out_len[i] = floor(in_len[i] * scale[i])`; (2) when explicit integer sizes
are supplied and evaluate at compile time, the sizes become the output
lengths and the scales are back-computed as
`scale[i] = out_len[i] / in_len[i]`. -/
theorem claim_C7 :
    (∀ (attrs : Attrs) (args : List Arg) (in_lens : List Nat) (qs : List ℚ)
       (ol : List Nat) (ri : Nat),
       resolve_step attrs args in_lens = .ok (true, qs, ol, ri) →
       ol.all (· = 0) = true →
       in_lens.length = qs.length →
       (∀ q ∈ qs, 0 ≤ q) →
       resolve_scales attrs args in_lens =
         .ok (true, qs,
           List.zipWith (fun (i : Nat) (q : ℚ) => (⌊(i : ℚ) * q⌋).toNat) in_lens qs, ri) ∧
       ∀ d < in_lens.length,
         ((List.zipWith (fun (i : Nat) (q : ℚ) => (⌊(i : ℚ) * q⌋).toNat) in_lens qs).getD d 0 : ℤ) =
           ⌊(in_lens.getD d 0 : ℚ) * qs.getD d 0⌋) ∧
    (∀ (first : Arg) (in_lens : List Nat) (a : Arg) (rest pre : List Arg)
       (vals vsc : List ℚ) (ol : List Nat) (idx : Nat),
       (∀ b ∈ pre, skippable first b) → ¬ skippable first a →
       a.shape.ty = DType.int64 → a.eval = some vals →
       (vals.map ratToSize).length = in_lens.length →
       parse_args_go first in_lens vsc ol idx (pre ++ a :: rest) =
         .ok (false,
           List.zipWith (fun (iss oss : Nat) => (oss : ℚ) / (iss : ℚ)) in_lens (vals.map ratToSize),
           vals.map ratToSize, idx + pre.length) ∧
       ∀ d < in_lens.length,
         (List.zipWith (fun (iss oss : Nat) => (oss : ℚ) / (iss : ℚ)) in_lens
             (vals.map ratToSize)).getD d 0 =
           ((vals.map ratToSize).getD d 0 : ℚ) / (in_lens.getD d 0 : ℚ)) := by
  constructor
  · intro attrs args in_lens qs ol ri hstep hzero hlen hpos
    constructor
    · simp only [resolve_scales, hstep]
      rw [if_neg (show ¬(in_lens.length ≠ qs.length) by omega), if_pos hzero,
        if_pos trivial]
    · intro d hd
      rw [getD_zipWith _ in_lens qs d 0 0 0 hd (by omega)]
      have hq : (0 : ℚ) ≤ qs.getD d 0 :=
        hpos _ (getD_mem_of_lt qs d 0 (by omega))
      have hnn : (0 : ℤ) ≤ ⌊(in_lens.getD d 0 : ℚ) * qs.getD d 0⌋ := by
        rw [Int.le_floor]
        push_cast
        exact mul_nonneg (by positivity) hq
      rw [Int.toNat_of_nonneg hnn]
  · intro first in_lens a rest pre vals vsc ol idx hpre hskip hty heval hlen
    constructor
    · exact parse_args_go_sizes first in_lens a rest vals hskip hty heval hlen
        pre hpre vsc ol idx
    · intro d hd
      rw [getD_zipWith _ in_lens (vals.map ratToSize) d 0 0 0 hd (by omega)]

/-- Witness for C7: scales attribute `[3/2]` on a length-2 input derives
`out_len = floor(2 * 3/2) = 3`; explicit sizes `[6]` on a length-2 input
back-compute `scale = 6/2`. -/
theorem claim_C7_witness :
    (resolve_scales ⟨none, none, none, [3 / 2], none⟩
        [⟨0, "x", ⟨DType.float, [2], false⟩, none⟩] [2] =
       .ok (true, [3 / 2],
         List.zipWith (fun (i : Nat) (q : ℚ) => (⌊(i : ℚ) * q⌋).toNat) [2] [3 / 2], 0) ∧
     ∀ d < ([2] : List Nat).length,
       ((List.zipWith (fun (i : Nat) (q : ℚ) => (⌊(i : ℚ) * q⌋).toNat) [2] [3 / 2]).getD d 0 : ℤ) =
         ⌊(([2] : List Nat).getD d 0 : ℚ) * (([3 / 2] : List ℚ).getD d 0)⌋) ∧
    (parse_args_go ⟨0, "x", ⟨DType.float, [2], false⟩, none⟩ [2] [] [0] 0
        ([⟨0, "x", ⟨DType.float, [2], false⟩, none⟩] ++
          ⟨1, "sz", ⟨DType.int64, [1], false⟩, some [6]⟩ :: []) =
       .ok (false,
         List.zipWith (fun (iss oss : Nat) => (oss : ℚ) / (iss : ℚ)) [2] (([6] : List ℚ).map ratToSize),
         ([6] : List ℚ).map ratToSize, 0 + 1) ∧
     ∀ d < ([2] : List Nat).length,
       (List.zipWith (fun (iss oss : Nat) => (oss : ℚ) / (iss : ℚ)) [2]
           (([6] : List ℚ).map ratToSize)).getD d 0 =
         ((([6] : List ℚ).map ratToSize).getD d 0 : ℚ) / (([2] : List Nat).getD d 0 : ℚ)) :=
  ⟨claim_C7.1 ⟨none, none, none, [3 / 2], none⟩
      [⟨0, "x", ⟨DType.float, [2], false⟩, none⟩] [2] [3 / 2] [0] 0
      rfl (by decide) (by decide) (by intro q hq; simp at hq; subst hq; norm_num),
   claim_C7.2 ⟨0, "x", ⟨DType.float, [2], false⟩, none⟩ [2]
      ⟨1, "sz", ⟨DType.int64, [1], false⟩, some [6]⟩ []
      [⟨0, "x", ⟨DType.float, [2], false⟩, none⟩] [6] [] [0] 0
      (by intro b hb; simp at hb; subst hb; exact Or.inr (Or.inl rfl))
      (by decide) rfl rfl (by with_unfolding_all rfl)⟩

/-! ### C5: the two nearest-mode lowerings -/

/-- C5: in nearest mode, a single generic `resize` instruction (carrying
`nearest_mode` and `coordinate_transformation_mode`, taking the data
argument and the scales/sizes argument) is emitted exactly when the input
shape is dynamic or the scales/sizes are not compile-time constant;
otherwise `reshape(input, [total_input_elements])` followed by
`gather(axis=0)` is emitted, with an int32 literal of shape `out_lens`
whose entry at each output position is the input shape's flat index of the
per-dimension indices `nearest_op(in_len[d], idx_op(in_len[d], out_len[d],
out_coord[d], scale[d]))`. -/
theorem claim_C5 (pol : Policies) (attrs : Attrs) (a0 : Arg) (rest : List Arg)
    (ctm : String) (isConst : Bool) (sc : List ℚ) (out_lens : List Nat) (ri : Nat)
    (hc : get_coord_trans_mode attrs = .ok ctm)
    (hm : get_mode attrs = .ok "nearest")
    (hex : attrs.exclude_outside ≠ some 1)
    (hr : resolve_scales attrs (a0 :: rest) a0.shape.to_static.lens =
      .ok (isConst, sc, out_lens, ri)) :
    (parse pol attrs a0 rest =
      if a0.shape.dyn = true ∨ isConst = false then
        ([Node.instr (Op.resize (get_nearest_mode attrs) ctm) [HRef.arg 0, HRef.arg ri]],
         .ok (HRef.node 0))
      else
        ([Node.instr (Op.reshape [(a0.shape.lens.prod : Int)]) [HRef.arg 0],
          Node.lit ⟨DType.int32, out_lens, false⟩
            (LitData.ints ((make_gather_ind (pol.getNearestOp (get_nearest_mode attrs))
              (pol.getIdxOp ctm) a0.shape.lens out_lens sc).map Int.ofNat)),
          Node.instr (Op.gather 0) [HRef.node 0, HRef.node 1]],
         .ok (HRef.node 2))) ∧
    (∀ oi < out_lens.prod,
      (make_gather_ind (pol.getNearestOp (get_nearest_mode attrs)) (pol.getIdxOp ctm)
          a0.shape.lens out_lens sc).getD oi 0 =
        shapeIndex a0.shape.lens ((List.range a0.shape.lens.length).map fun ii =>
          pol.getNearestOp (get_nearest_mode attrs) (a0.shape.lens.getD ii 0)
            (pol.getIdxOp ctm (a0.shape.lens.getD ii 0) (out_lens.getD ii 0)
              ((multiIdx out_lens oi).getD ii 0) (sc.getD ii 0)))) := by
  constructor
  · simp only [parse, hc, hm]
    rw [if_neg hex]
    simp only [hr]
    rw [if_pos trivial]
    by_cases hd : a0.shape.dyn = true ∨ isConst = false
    · rw [if_pos hd, if_pos hd]
    · rw [if_neg hd, if_neg hd]
      rfl
  · intro oi hoi
    rw [make_gather_ind, getD_map_range _ _ oi 0 hoi]

/-- Witness for C5: static shape `[1,1,4]`, constant scale argument
`[1,1,2]` — the compile-time reshape + gather lowering is emitted. -/
theorem claim_C5_witness :
    parse idPolicies ⟨none, none, none, [], none⟩
        ⟨0, "x", ⟨DType.float, [1, 1, 4], false⟩, none⟩
        [⟨1, "s", ⟨DType.float, [3], false⟩, some [1, 1, 2]⟩] =
      if (⟨DType.float, [1, 1, 4], false⟩ : Shape).dyn = true ∨ true = false then
        ([Node.instr (Op.resize "round_prefer_floor" "half_pixel") [HRef.arg 0, HRef.arg 1]],
         .ok (HRef.node 0))
      else
        ([Node.instr (Op.reshape [(([1, 1, 4] : List Nat).prod : Int)]) [HRef.arg 0],
          Node.lit ⟨DType.int32, [1, 1, 8], false⟩
            (LitData.ints ((make_gather_ind (idPolicies.getNearestOp "round_prefer_floor")
              (idPolicies.getIdxOp "half_pixel") [1, 1, 4] [1, 1, 8] [1, 1, 2]).map Int.ofNat)),
          Node.instr (Op.gather 0) [HRef.node 0, HRef.node 1]],
         .ok (HRef.node 2)) :=
  (claim_C5 idPolicies ⟨none, none, none, [], none⟩
    ⟨0, "x", ⟨DType.float, [1, 1, 4], false⟩, none⟩
    [⟨1, "s", ⟨DType.float, [3], false⟩, some [1, 1, 2]⟩]
    "half_pixel" true [1, 1, 2] [1, 1, 8] 1
    rfl rfl (by decide) (by with_unfolding_all rfl)).1

/-! ### C10: the gather indices stay in bounds -/

/-- C10: if the nearest-rounding policy clamps its result to
`[0, in_len - 1]` for every dimension of the input, then every entry of the
index literal emitted by `make_gather_instruction` lies in
`[0, total_input_elements)`, so the gather over the flattened input never
selects out of bounds. -/
theorem claim_C10 (nOp : Nat → ℚ → Nat) (idxOp : Nat → Nat → Nat → ℚ → ℚ)
    (in_lens out_lens : List Nat) (qs : List ℚ)
    (hclamp : ∀ d < in_lens.length, ∀ x : ℚ, nOp (in_lens.getD d 0) x < in_lens.getD d 0) :
    ∀ z ∈ (make_gather_ind nOp idxOp in_lens out_lens qs).map Int.ofNat,
      0 ≤ z ∧ z < Int.ofNat in_lens.prod := by
  intro z hz
  rw [List.mem_map] at hz
  obtain ⟨y, hy, rfl⟩ := hz
  refine ⟨Int.ofNat_nonneg y, ?_⟩
  have hb : y < in_lens.prod := by
    rw [make_gather_ind, List.mem_map] at hy
    obtain ⟨oi, _, rfl⟩ := hy
    apply shapeIndex_lt
    · simp
    · intro d hd
      rw [getD_map_range _ _ d 0 hd]
      exact hclamp d hd _
  exact Int.ofNat_lt.mpr hb

/-- Witness for C10 at the first emitted index of a concrete lowering. -/
theorem claim_C10_witness :
    (0 : Int) ≤ 0 ∧ (0 : Int) < Int.ofNat (([2] : List Nat).prod) :=
  claim_C10 (idPolicies.getNearestOp "round_prefer_floor")
    (idPolicies.getIdxOp "half_pixel") [2] [4] [1]
    (by
      intro d hd x
      simp only [List.length_cons, List.length_nil] at hd
      have hd0 : d = 0 := by omega
      subst hd0
      show min (⌊x⌋).toNat (2 - 1) < 2
      omega)
    0 (by with_unfolding_all decide)

/-! ### C6: structure of the linear blending loop -/

lemma iterChunk_length (rest : List Nat) (out0 : Nat) (d : List ℚ) (b : Nat)
    (dref : HRef) (base : Nat) : (iterChunk rest out0 d b dref base).length = 6 := rfl

lemma range_flatMap_succ {α : Type} (n : Nat) (g : Nat → List α) :
    (List.range (n + 1)).flatMap g = g 0 ++ (List.range n).flatMap (fun k => g (k + 1)) := by
  rw [List.range_succ_eq_map, List.flatMap_cons, List.flatMap_map]

lemma flatMap_congr_mem {α β : Type} (l : List α) (f g : α → List β)
    (h : ∀ x ∈ l, f x = g x) : l.flatMap f = l.flatMap g := by
  induction l with
  | nil => rfl
  | cons a l ih =>
    rw [List.flatMap_cons, List.flatMap_cons, h a (by simp),
      ih (fun x hx => h x (by simp [hx]))]

lemma reverse_map_range_getD {α : Type} (n : Nat) (f : Nat → α) (k : Nat) (x : α)
    (hk : k < n) : (((List.range n).map f).reverse).getD k x = f (n - 1 - k) := by
  rw [List.getD_eq_getElem?_getD, List.getElem?_eq_getElem (by simp [hk])]
  simp [List.getElem_reverse, hk]

lemma two_pow_split (out0 n k : Nat) (hk : k < n) :
    out0 * 2 ^ (n - 1) / 2 ^ k = out0 * 2 ^ (n - 1 - k) := by
  have h2 : (2:Nat) ^ (n - 1) = 2 ^ (n - 1 - k) * 2 ^ k := by
    rw [← pow_add]
    congr 1
    omega
  rw [h2, ← Nat.mul_assoc, Nat.mul_div_cancel _ (Nat.pos_pow_of_pos k (by omega))]

lemma blendLoop_spec (out0 : Nat) (rest : List Nat) :
    ∀ (ds : List (List ℚ)) (b : Nat) (data : HRef) (nodes : List Node),
      blendLoop out0 rest ds b data nodes =
        (nodes ++ (List.range ds.length).flatMap (fun k =>
            iterChunk rest out0 (ds.getD k []) (b / 2 ^ k)
              (if k = 0 then data else HRef.node (nodes.length + 6 * k - 1))
              (nodes.length + 6 * k)),
         if ds.length = 0 then data else HRef.node (nodes.length + 6 * ds.length - 1)) := by
  intro ds
  induction ds with
  | nil => intro b data nodes; simp [blendLoop]
  | cons d ds ih =>
    intro b data nodes
    simp only [blendLoop]
    rw [ih (b / 2) (HRef.node (nodes.length + 5))
      (nodes ++ iterChunk rest out0 d b data nodes.length)]
    simp only [List.length_cons, List.length_append, iterChunk_length]
    rw [Prod.mk.injEq]
    constructor
    · rw [range_flatMap_succ, List.append_assoc]
      congr 1
      congr 1
      · simp
      · apply flatMap_congr_mem
        intro k hk
        rw [List.getD_cons_succ]
        have hb : b / 2 / 2 ^ k = b / 2 ^ (k + 1) := by
          rw [Nat.div_div_eq_div_mul]
          congr 1
          rw [pow_succ, Nat.mul_comm]
        have hd : (if k = 0 then HRef.node (nodes.length + 5)
              else HRef.node (nodes.length + 6 + 6 * k - 1)) =
            (if k + 1 = 0 then data else HRef.node (nodes.length + 6 * (k + 1) - 1)) := by
          cases k with
          | zero => simp
          | succ m =>
            rw [if_neg (by omega), if_neg (by omega)]
            congr 1
            omega
        have hbase : nodes.length + 6 + 6 * k = nodes.length + 6 * (k + 1) := by omega
        rw [hb, hd, hbase]
    · cases ds with
      | nil => simp
      | cons e es =>
        rw [if_neg (by simp), if_neg (by simp)]
        congr 1
        simp
        omega

/-- C6: in linear mode with compile-time-constant shapes and scales, after
the corner gather the builder performs exactly `rank` iterations processing
dimensions from last to first; iteration `k` emits the tiled delta literal
of dimension `rank - 1 - k` with leading length `out0 * 2^(rank-1-k)`
(`iterChunk`: literal, low slice `[0,b)`, high slice `[b,2b)`, then
`sub`/`mul`/`add` computing `low + (high - low) * delta`), the tracked
leading block length halving each iteration; the tiling factor is
`2^(rank-1-k)`, the final iteration's leading length equals the true output
leading length, and the final `add` node is the returned result. -/
theorem claim_C6 (pol : Policies) (attrs : Attrs) (a0 : Arg) (rest : List Arg)
    (ctm : String) (sc : List ℚ) (out_lens : List Nat) (ri : Nat) (ind : List Nat)
    (hc : get_coord_trans_mode attrs = .ok ctm)
    (hm : get_mode attrs = .ok "linear")
    (hex : attrs.exclude_outside ≠ some 1)
    (hr : resolve_scales attrs (a0 :: rest) a0.shape.to_static.lens =
      .ok (true, sc, out_lens, ri))
    (hn : 0 < out_lens.length)
    (hout0 : 0 < out_lens.headD 0)
    (hcalc : calc_neighbor_points
      (lin_vvv (pol.getNearestOp "floor") (pol.getNearestOp "ceil") (pol.getIdxOp ctm)
        a0.shape.to_static.lens out_lens sc) a0.shape.to_static.lens = .ok ind) :
    parse pol attrs a0 rest =
      (Node.instr (Op.reshape [(a0.shape.to_static.lens.prod : Int)]) [HRef.arg 0] ::
       Node.lit ⟨DType.int32, updateHead (· * 2 ^ out_lens.length) out_lens, false⟩
         (LitData.ints (ind.map Int.ofNat)) ::
       Node.instr (Op.gather 0) [HRef.node 0, HRef.node 1] ::
       (List.range out_lens.length).flatMap (fun k =>
         iterChunk out_lens.tail (out_lens.headD 0)
           (lin_delta_col (pol.getNearestOp "floor") (pol.getIdxOp ctm)
             a0.shape.to_static.lens out_lens sc (out_lens.length - 1 - k))
           (out_lens.headD 0 * 2 ^ (out_lens.length - 1 - k))
           (if k = 0 then HRef.node 2 else HRef.node (3 + 6 * k - 1))
           (3 + 6 * k)),
       .ok (HRef.node (3 + 6 * out_lens.length - 1))) ∧
    (∀ k < out_lens.length,
      out_lens.headD 0 * 2 ^ (out_lens.length - 1 - k) / out_lens.headD 0 =
        2 ^ (out_lens.length - 1 - k)) ∧
    out_lens.headD 0 * 2 ^ (out_lens.length - 1 - (out_lens.length - 1)) =
      out_lens.headD 0 := by
  obtain ⟨o, t, rfl⟩ : ∃ o t, out_lens = o :: t := by
    cases out_lens with
    | nil => simp at hn
    | cons o t => exact ⟨o, t, rfl⟩
  refine ⟨?_, ?_, ?_⟩
  · simp only [parse, hc, hm]
    rw [if_neg hex]
    simp only [hr]
    rw [if_neg (show ¬("linear" = "nearest") by decide)]
    simp only [linearBranch]
    rw [if_neg (show ¬(true = false) by simp)]
    rw [hcalc]
    dsimp only
    rw [lin_deltas, blendLoop_spec]
    rw [Prod.mk.injEq]
    constructor
    · dsimp only
      simp only [updateHead, List.headD_cons, List.tail_cons, List.length_reverse,
        List.length_map, List.length_range, List.length_cons, List.cons_append,
        List.nil_append, List.length_nil, Nat.add_sub_cancel]
      congr 1
      congr 1
      congr 1
      apply flatMap_congr_mem
      intro k hk
      rw [List.mem_range] at hk
      have hb : o * 2 ^ t.length / 2 ^ k = o * 2 ^ (t.length - k) := by
        have h2 := two_pow_split o (t.length + 1) k (by omega)
        simpa using h2
      have hg : ((List.map (lin_delta_col (pol.getNearestOp "floor") (pol.getIdxOp ctm)
            a0.shape.to_static.lens (o :: t) sc) (List.range (t.length + 1))).reverse).getD k [] =
          lin_delta_col (pol.getNearestOp "floor") (pol.getIdxOp ctm)
            a0.shape.to_static.lens (o :: t) sc (t.length + 1 - 1 - k) := by
        exact reverse_map_range_getD (t.length + 1) _ k [] (by omega)
      rw [hg, hb]
      simp
    · dsimp only
      simp only [List.length_reverse, List.length_map, List.length_range, List.length_cons,
        List.length_nil]
      rw [if_neg (by omega)]
  · intro k _
    exact Nat.mul_div_cancel_left _ hout0
  · simp

/-- Witness for C6: shape `[2]`, scales attribute `[1]`, linear mode — one
blend iteration over the single dimension. -/
theorem claim_C6_witness :
    parse idPolicies ⟨none, some "linear", none, [1], none⟩
        ⟨0, "x", ⟨DType.float, [2], false⟩, none⟩ [] =
      (Node.instr (Op.reshape [(([2] : List Nat).prod : Int)]) [HRef.arg 0] ::
       Node.lit ⟨DType.int32, updateHead (· * 2 ^ ([2] : List Nat).length) [2], false⟩
         (LitData.ints (([0, 1, 0, 1] : List Nat).map Int.ofNat)) ::
       Node.instr (Op.gather 0) [HRef.node 0, HRef.node 1] ::
       (List.range ([2] : List Nat).length).flatMap (fun k =>
         iterChunk ([2] : List Nat).tail (([2] : List Nat).headD 0)
           (lin_delta_col (idPolicies.getNearestOp "floor") (idPolicies.getIdxOp "half_pixel")
             [2] [2] [1] (([2] : List Nat).length - 1 - k))
           (([2] : List Nat).headD 0 * 2 ^ (([2] : List Nat).length - 1 - k))
           (if k = 0 then HRef.node 2 else HRef.node (3 + 6 * k - 1))
           (3 + 6 * k)),
       .ok (HRef.node (3 + 6 * ([2] : List Nat).length - 1))) :=
  (claim_C6 idPolicies ⟨none, some "linear", none, [1], none⟩
    ⟨0, "x", ⟨DType.float, [2], false⟩, none⟩ [] "half_pixel" [1] [2] 0 [0, 1, 0, 1]
    rfl rfl (by decide) (by with_unfolding_all rfl) (by decide) (by decide)
    (by with_unfolding_all rfl)).1
